import Mathlib

/-!
Stash plugin tasks: a shallow embedding.

Embeds `pkg/plugin/js.go`, `pkg/plugin/plugins.go` and the event loop of
`pkg/manager/task_plugin.go`.

Conventions
* a Go method with a pointer receiver that mutates its receiver becomes a
  function returning the new receiver next to its Go results;
* a Go `error` result is an `Option String` holding `err.Error()`;
* library calls whose result depends on the outside world (the script engine
  running a script, the file system, the YAML reader) are inputs of the model.
-/

namespace Stash

/-! ## Values of the script engine (`otto.Value`) -/

/-- Go's `string`. -/
abbrev GoString := String

/-- Script values (`otto.Value`) by kind. A number is kept as the 64 bits of
its float64. An object, which a function, an array or an error object is too,
is kept as its identity in the engine and its properties as `Get` resolves
them, own and inherited, in lookup order. -/
inductive Value where
  | undefined
  | null
  | boolean (b : Bool)
  | number (bits : Nat)
  | string (s : GoString)
  | object (ref : Nat) (fields : List (GoString × Value))

/-- The method `Value.IsUndefined`. -/
def Value.IsUndefined : Value → Bool
  | .undefined => true
  | _ => false

/-- The engine as far as a value needs it after the run: `String` is the
method `Value.String`, the string form the engine gives a value. For an object
the engine runs the `toString` of the object, for a number it prints the
number; the model takes the outcome as given. -/
structure Engine where
  String : Value → GoString

/-- The method `Value.Object`: the object behind a value, nil (`none`) for a primitive. -/
def Value.Object : Value → Option (List (GoString × Value))
  | .object _ fields => some fields
  | _ => none

/-- The method `Object.Get`: the value of a property, the undefined value when the
object has no such property. -/
def Object.Get (fields : List (String × Value)) (name : String) : Value :=
  match fields.lookup name with
  | some v => v
  | none => Value.undefined

/-! ## Data model (`pkg/plugin`) -/

/-- The type `common.PluginOutput`: `Error *string` and `Output interface{}`,
a nil pointer or nil interface being `none`. -/
structure PluginOutput where
  Error : Option String := none
  Output : Option Value := none

/-- Modelled from the spec: the type `OperationConfig` is declared outside the
listed sources; an operation is a name and a human description. -/
structure OperationConfig where
  Name : String
  Description : String := ""
deriving DecidableEq, Repr

/-- Modelled from the spec: the type `Config` is declared outside the listed
sources; a manifest is an id, a display name, the executable entries and the
declared operations. -/
structure Config where
  id : String
  Name : String := ""
  Exec : List String := []
  Tasks : List OperationConfig := []
deriving DecidableEq, Repr

/-- The struct `pluginTask` as far as the listed sources use it: the fields
set by `CreateTask` that are data, and `result`. The connection, the progress
channel and the query handler are handles the model does not look into. -/
structure PluginTask where
  plugin : Config
  operation : OperationConfig
  args : List (String × String) := []
  result : Option PluginOutput := none

/-- A value a goroutine can unwind with. `errStop` is the package variable
`errStop`; Go compares it by identity, so any other value, whatever its
message, is `other`. -/
inductive PanicValue where
  | errStop
  | other (msg : String)
deriving DecidableEq, Repr

/-- The engine `otto.Otto` as far as the task uses it: its `Interrupt`
channel, `none` for the nil channel, otherwise the queued interrupt functions
of a channel of capacity one. An interrupt function is kept as the value it
unwinds with. -/
structure Otto where
  Interrupt : Option (List PanicValue) := none

/-- The constructor `otto.New`: an engine without interrupt channel. -/
def Otto.New : Otto := { Interrupt := none }

/-- The struct `jsPluginTask`. `waitGroup` is the counter of the
`sync.WaitGroup`, `vm` is `none` for the nil pointer, and `spawned` counts the
`go` statements executed for this task. -/
structure JsPluginTask extends PluginTask where
  started : Bool := false
  waitGroup : Nat := 0
  vm : Option Otto := none
  spawned : Nat := 0

/-- The builder `jsTaskBuilder.build`. -/
def jsTaskBuilder.build (task : PluginTask) : JsPluginTask :=
  { toPluginTask := task }

/-- What is outside the task when `Start` runs: `compile plugin scriptFile` is
the error, if any, of compiling `scriptFile` found next to the manifest of
`plugin`. -/
structure Env where
  compile : Config → String → Option String

/-- How `vm.Run(script)` ends: it returns a value, it returns an error (kept
as `err.Error()`), or it unwinds with a value the engine does not turn into an
error. A returned value comes with the engine it belongs to. -/
inductive RunOutcome where
  | returned (engine : Engine) (output : Value)
  | failed (err : String)
  | panicked (p : PanicValue)

/-! ## `pkg/plugin/js.go` -/

/-- The method `jsPluginTask.onError`. -/
def JsPluginTask.onError (t : JsPluginTask) (err : String) : JsPluginTask :=
  let errString := err
  { t with result := some { Error := some errString } }

/-- The method `jsPluginTask.makeOutput`; `engine` is the engine the value `o`
belongs to. -/
def JsPluginTask.makeOutput (engine : Engine) (t : JsPluginTask) (o : Value) :
    JsPluginTask :=
  let result : PluginOutput := {}
  match o.Object with
  | none => { t with result := some result }
  | some asObj =>
    let result := { result with Output := some (Object.Get asObj "Output") }
    let err := Object.Get asObj "Error"
    if !err.IsUndefined then
      let errStr := engine.String err
      { t with result := some { result with Error := some errStr } }
    else
      { t with result := some result }

/-- The method `jsPluginTask.Start`, up to and including the `go` statement.
The goroutine it launches is `JsPluginTask.worker`. -/
def JsPluginTask.Start (env : Env) (t : JsPluginTask) : Option String × JsPluginTask :=
  if t.started then
    (some "task already started", t)
  else
    let t := { t with started := true }
    match t.plugin.Exec with
    | [] => (some "no script specified in exec", t)
    | scriptFile :: _ =>
      let t := { t with vm := some Otto.New }
      match env.compile t.plugin scriptFile with
      | some err => (some err, t)
      | none =>
        let t := { t with vm := some { Interrupt := some [] } }
        let t := { t with waitGroup := t.waitGroup + 1 }
        (none, { t with spawned := t.spawned + 1 })

/-- The body of the goroutine of `Start`: the task after it, and the value it
unwinds with, if any. -/
def JsPluginTask.workerBody (r : RunOutcome) (t : JsPluginTask) :
    JsPluginTask × Option PanicValue :=
  match r with
  | .returned engine output => (t.makeOutput engine output, none)
  | .failed err => (t.onError err, none)
  | .panicked p => (t, some p)

/-- The deferred function of the goroutine of `Start`, run on the task and the
unwind the body left: `waitGroup.Done()`, then `recover()`. The result is the
task and the unwind that leaves the goroutine, if any. `Done` on a counter
that is zero unwinds by itself. -/
def JsPluginTask.deferred (t : JsPluginTask) (unwinding : Option PanicValue) :
    JsPluginTask × Option PanicValue :=
  if t.waitGroup = 0 then
    (t, some (PanicValue.other "sync: negative WaitGroup counter"))
  else
    let t := { t with waitGroup := t.waitGroup - 1 }
    match unwinding with
    | some caught =>
      if caught = PanicValue.errStop then
        (t, none)
      else
        (t, none)
    | none => (t, none)

/-- The goroutine of `Start`: body, then the deferred function. -/
def JsPluginTask.worker (r : RunOutcome) (t : JsPluginTask) :
    JsPluginTask × Option PanicValue :=
  let (t, unwinding) := t.workerBody r
  t.deferred unwinding

/-- The method `jsPluginTask.Wait`: it returns once the counter of the wait
group is zero and blocks (`none`) as long as it is not. -/
def JsPluginTask.Wait (t : JsPluginTask) : Option JsPluginTask :=
  if t.waitGroup = 0 then some t else none

/-- How a call of `Stop` ends. -/
inductive StopOutcome where
  | returned (err : Option String) (t : JsPluginTask)
  | fault
  | blocked

/-- The method `jsPluginTask.Stop`: `t.vm.Interrupt` on a nil `vm` is a nil
dereference, a send on the nil channel never completes, and a send on the
channel of capacity one completes when the channel is empty. -/
def JsPluginTask.Stop (t : JsPluginTask) : StopOutcome :=
  match t.vm with
  | none => .fault
  | some vm =>
    match vm.Interrupt with
    | none => .blocked
    | some queue =>
      if queue.length < 1 then
        .returned none { t with vm := some { vm with Interrupt := some (queue ++ [PanicValue.errStop]) } }
      else
        .blocked

/-- A sequence of `Start` calls on one task, each in its own surroundings:
the errors returned, in order, and the task afterwards. -/
def JsPluginTask.startAll : List Env → JsPluginTask → List (Option String) × JsPluginTask
  | [], t => ([], t)
  | env :: rest, t =>
    let (err, t1) := t.Start env
    let (errs, t2) := JsPluginTask.startAll rest t1
    (err :: errs, t2)

/-! ## `pkg/plugin/plugins.go` -/

/-- The struct `Cache`: the loaded plugins, and `pluginsPath` for what
`c.config.GetPluginsPath()` returns. The query handler is a handle the model
does not look into. -/
structure Cache where
  pluginsPath : String := ""
  plugins : List Config := []
deriving DecidableEq, Repr

/-- One call of the walk function by `filepath.Walk`: the path visited and the
error the walk met there, if any. -/
structure WalkEntry where
  path : String
  err : Option String := none
deriving DecidableEq, Repr

/-- The library function `filepath.Walk` on a tree whose traversal visits
`entries`: the walk function runs on each entry in order, and the first error
it returns ends the walk and is the result. A walk function that returns nil
throughout is never sent into a subtree it asked to skip, so the entries do
not depend on it. -/
def Walk {σ : Type} (fn : σ → WalkEntry → σ × Option String) :
    List WalkEntry → σ → σ × Option String
  | [], s => (s, none)
  | e :: rest, s =>
    match fn s e with
    | (s1, some err) => (s1, some err)
    | (s1, none) => Walk fn rest s1

/-- Scan of `filepath.Ext` over the characters of a path, last character
first; `acc` is what has been passed. -/
def extScan : List Char → List Char → List Char
  | [], _ => []
  | c :: rest, acc =>
    if c = '/' then []
    else if c = '.' then c :: acc
    else extScan rest (c :: acc)

/-- The library function `filepath.Ext`: the suffix of the last path element
from its last dot on, empty when it has no dot. -/
def Ext (path : String) : String :=
  String.mk (extScan path.data.reverse [])

/-- The walk function of `loadPlugins`: it keeps the paths that end in
`.yml`, ignores the error handed to it and returns nil. -/
def collectYml (pluginFiles : List String) (e : WalkEntry) : List String × Option String :=
  if Ext e.path = ".yml" then
    (pluginFiles ++ [e.path], none)
  else
    (pluginFiles, none)

/-- The function `loadPlugins`. `fs path` is the traversal of the tree at
`path`, `loadPluginFromYAMLFile` the reader of one manifest file. -/
def loadPlugins (fs : String → List WalkEntry)
    (loadPluginFromYAMLFile : String → Except String Config) (path : String) :
    Except String (List Config) :=
  let plugins : List Config := []
  let pluginFiles : List String := []
  match Walk collectYml (fs path) pluginFiles with
  | (_, some err) => .error err
  | (pluginFiles, none) =>
    .ok (pluginFiles.foldl
      (fun plugins file =>
        match loadPluginFromYAMLFile file with
        | .error _ => plugins
        | .ok plugin => plugins ++ [plugin])
      plugins)

/-- The method `Cache.LoadPlugins` with its callee `loadPlugins` passed in as
`load`: the error returned and the cache afterwards. -/
def Cache.LoadPluginsWith (load : String → Except String (List Config)) (c : Cache) :
    Option String × Cache :=
  let c := { c with plugins := [] }
  match load c.pluginsPath with
  | .error err => (some err, c)
  | .ok plugins => (none, { c with plugins := plugins })

/-- The method `Cache.LoadPlugins`. -/
def Cache.LoadPlugins (fs : String → List WalkEntry)
    (loadPluginFromYAMLFile : String → Except String Config) (c : Cache) :
    Option String × Cache :=
  c.LoadPluginsWith (loadPlugins fs loadPluginFromYAMLFile)

/-- The method `Cache.ListPlugins`; `toPlugin` is the method `Config.toPlugin`,
declared outside the listed sources. -/
def Cache.ListPlugins {P : Type} (toPlugin : Config → P) (c : Cache) : List P :=
  c.plugins.foldl (fun ret s => ret ++ [toPlugin s]) []

/-- The method `Cache.getPlugin` on the list it ranges over. -/
def getPluginIn : List Config → String → Option Config
  | [], _ => none
  | s :: rest, pluginID => if s.id = pluginID then some s else getPluginIn rest pluginID

/-- The method `Cache.getPlugin`. -/
def Cache.getPlugin (c : Cache) (pluginID : String) : Option Config :=
  getPluginIn c.plugins pluginID

/-- Modelled from the spec: the method `Config.getTask` is declared outside the
listed sources. An operation is resolved by exact name match among the
operations the plugin declares, and is not found when none has the name. -/
def Config.getTask (c : Config) (name : String) : Option OperationConfig :=
  c.Tasks.find? (fun o => o.Name = name)

/-- The method `Cache.CreateTask`: the task or the error, and the cache
afterwards. `getName` and `createTask` are the methods `Config.getName` and
`pluginTask.createTask`, declared outside the listed sources. -/
def Cache.CreateTask {T : Type} (getName : Config → String) (createTask : PluginTask → T)
    (c : Cache) (pluginID : String) (operationName : String) (args : List (String × String)) :
    Except String T × Cache :=
  match c.getPlugin pluginID with
  | none => (.error ("no plugin with ID " ++ pluginID), c)
  | some plugin =>
    match plugin.getTask operationName with
    | none =>
      (.error ("no task with name " ++ operationName ++ " in plugin " ++ getName plugin), c)
    | some operation =>
      let task : PluginTask := { plugin := plugin, operation := operation, args := args }
      (.ok (createTask task), c)

/-! ## `pkg/manager/task_plugin.go`: the event loop of `RunPluginTask` -/

/-- What one `select` of the loop receives: `done` closed, a value on
`pluginProgress`, or `ctx.Done()` closed. -/
inductive Event (α : Type) where
  | done
  | progress (p : α)
  | ctxDone

/-- What the loop did: the arguments of `progress.SetPercent` in call order,
the number of `task.Stop()` calls, and whether the loop returned. -/
structure LoopTrace (α : Type) where
  percents : List α := []
  stopCalls : Nat := 0
  returned : Bool := false

/-- The `for`/`select` loop of `RunPluginTask` servicing `events` in order:
the trace, and the events it never received. With no event left the loop
waits in `select`. -/
def eventLoop {α : Type} : List (Event α) → LoopTrace α → LoopTrace α × List (Event α)
  | [], tr => (tr, [])
  | .done :: rest, tr => ({ tr with returned := true }, rest)
  | .progress p :: rest, tr => eventLoop rest { tr with percents := tr.percents ++ [p] }
  | .ctxDone :: rest, tr => ({ tr with stopCalls := tr.stopCalls + 1, returned := true }, rest)

/-- The progress values among `events` that come before the first `done` or
`ctxDone`. -/
def progressBefore {α : Type} : List (Event α) → List α
  | .progress p :: rest => p :: progressBefore rest
  | _ => []

/-! ## Concrete inputs used by the closed statements below -/

/-- A manifest with one script and one operation. -/
def demoPlugin : Config :=
  { id := "demo", Name := "Demo", Exec := ["main.js"], Tasks := [{ Name := "run" }] }

/-- A task for `demoPlugin` as `CreateTask` builds it. -/
def demoTask : PluginTask :=
  { plugin := demoPlugin, operation := { Name := "run" } }

/-- A task for a manifest that lists no script. -/
def noExecTask : PluginTask :=
  { plugin := { id := "empty" }, operation := { Name := "run" } }

/-- An engine for the closed statements below. It gives the string form of
otto on the undefined value, on null, on booleans and on strings; numbers and
objects, to which no statement below applies it, get the empty string. -/
def demoEngine : Engine :=
  { String := fun v =>
      match v with
      | .undefined => "undefined"
      | .null => "null"
      | .boolean b => if b then "true" else "false"
      | .string s => s
      | _ => "" }

/-- Surroundings in which every script compiles. -/
def compilesEnv : Env := { compile := fun _ _ => none }

/-- Surroundings in which no script compiles. -/
def brokenEnv : Env := { compile := fun _ _ => some "SyntaxError" }

/-- A plugin directory that does not exist: the walk visits the root alone
and meets an error there. -/
def missingDir : String → List WalkEntry :=
  fun path => [{ path := path, err := some "lstat: no such file or directory" }]

/-- A cache that holds `demoPlugin`. -/
def demoCache : Cache := { pluginsPath := "plugins", plugins := [demoPlugin] }

/-- A plugin directory with three manifests, a script and a subdirectory. -/
def demoDir : String → List WalkEntry :=
  fun _ => [{ path := "plugins" }, { path := "plugins/a.yml" }, { path := "plugins/a.js" },
    { path := "plugins/b.yml" }, { path := "plugins/sub" }, { path := "plugins/sub/c.yml" }]

/-- A manifest reader that fails on `plugins/b.yml` alone. -/
def demoReader : String → Except String Config :=
  fun file => if file = "plugins/b.yml" then .error "yaml: line 1" else .ok { id := file }

/-- The manifest files of a traversal: the paths visited that end in `.yml`,
in the order of the walk. -/
def manifestFiles (entries : List WalkEntry) : List String :=
  (entries.map (fun e => e.path)).filter (fun fp => Ext fp = ".yml")

/-! ## Facts about `Start` -/

theorem Start_of_started (env : Env) (t : JsPluginTask) (h : t.started = true) :
    t.Start env = (some "task already started", t) := by
  simp [JsPluginTask.Start, h]

theorem Start_sets_started (env : Env) (t : JsPluginTask) :
    (t.Start env).2.started = true := by
  unfold JsPluginTask.Start
  by_cases h : t.started = true
  · simp [h]
  · simp only [h]
    cases hx : t.plugin.Exec with
    | nil => simp [hx]
    | cons f rest =>
      simp only [hx]
      cases hc : env.compile t.plugin f <;> simp [hc]

theorem Start_spawned_le (env : Env) (t : JsPluginTask) :
    (t.Start env).2.spawned ≤ t.spawned + 1 ∧ (t.Start env).2.waitGroup ≤ t.waitGroup + 1 := by
  unfold JsPluginTask.Start
  by_cases h : t.started = true
  · simp [h]
  · simp only [h]
    cases hx : t.plugin.Exec with
    | nil => simp [hx]
    | cons f rest =>
      simp only [hx]
      cases hc : env.compile t.plugin f <;> simp [hc]

theorem startAll_of_started (envs : List Env) (t : JsPluginTask) (h : t.started = true) :
    JsPluginTask.startAll envs t
      = (List.replicate envs.length (some "task already started"), t) := by
  induction envs with
  | nil => simp [JsPluginTask.startAll]
  | cons env rest ih =>
    simp [JsPluginTask.startAll, Start_of_started env t h, ih, List.replicate_succ]

/-- What a successful `Start` on a task that was not started leaves. -/
theorem Start_ok_shape (env : Env) (t t1 : JsPluginTask) (h0 : t.started = false)
    (h : t.Start env = (none, t1)) :
    t1.result = t.result ∧ t1.waitGroup = t.waitGroup + 1 ∧
      t1.vm = some { Interrupt := some [] } ∧ t1.spawned = t.spawned + 1 := by
  unfold JsPluginTask.Start at h
  simp only [h0] at h
  cases hx : t.plugin.Exec with
  | nil => simp [hx] at h
  | cons f rest =>
    simp only [hx] at h
    cases hc : env.compile t.plugin f with
    | some e => simp [hc] at h
    | none =>
      simp [hc] at h
      subst h
      simp

/-- What a failed `Start` on a task that was not started and has no engine
leaves: no engine, or an engine without interrupt channel. -/
theorem Start_error_shape (env : Env) (t t1 : JsPluginTask) (e : String)
    (h0 : t.started = false) (hvm : t.vm = none) (h : t.Start env = (some e, t1)) :
    t1.vm = none ∨ t1.vm = some { Interrupt := none } := by
  unfold JsPluginTask.Start at h
  simp only [h0] at h
  cases hx : t.plugin.Exec with
  | nil =>
    simp [hx] at h
    left
    rw [← h.2]
    exact hvm
  | cons f rest =>
    simp only [hx] at h
    cases hc : env.compile t.plugin f with
    | some e2 =>
      simp [hc] at h
      right
      rw [← h.2]
      rfl
    | none => simp [hc] at h

theorem Stop_never_returns_error (t t2 : JsPluginTask) (e : String) :
    t.Stop ≠ StopOutcome.returned (some e) t2 := by
  unfold JsPluginTask.Stop
  cases t.vm with
  | none => simp
  | some vm =>
    cases hi : vm.Interrupt with
    | none => simp [hi]
    | some queue =>
      by_cases hq : queue = [] <;> simp [hi, hq]

/-! ## Claims on `pkg/plugin/js.go` -/

/-- C1: whatever the first call of `Start` on a task returns, the task is
started afterwards; every later call returns the error `task already started`
and leaves the task as it is; and over the whole sequence of calls at most one
goroutine is launched and the wait group is incremented at most once. -/
theorem C1_start_effective_at_most_once (env : Env) (envs : List Env) (t : JsPluginTask) :
    (t.Start env).2.started = true ∧
    (JsPluginTask.startAll envs (t.Start env).2).1
      = List.replicate envs.length (some "task already started") ∧
    (JsPluginTask.startAll envs (t.Start env).2).2 = (t.Start env).2 ∧
    (JsPluginTask.startAll (env :: envs) t).2.spawned ≤ t.spawned + 1 ∧
    (JsPluginTask.startAll (env :: envs) t).2.waitGroup ≤ t.waitGroup + 1 := by
  have hs := Start_sets_started env t
  have hall := startAll_of_started envs (t.Start env).2 hs
  have hle := Start_spawned_le env t
  refine ⟨hs, by rw [hall], by rw [hall], ?_, ?_⟩
  · simp only [JsPluginTask.startAll, hall]
    exact hle.1
  · simp only [JsPluginTask.startAll, hall]
    exact hle.2

/-- C2: on a task built without result and started successfully, `Stop`
queues the stop signal and returns nil; when the goroutine is then unwound by
`errStop`, nothing leaves the deferred function, the wait group is back at
zero so that `Wait` returns, and the result of the task is absent. -/
theorem C2_stop_signal_is_swallowed (env : Env) (task : PluginTask) (t1 : JsPluginTask)
    (hres : task.result = none)
    (hstart : (jsTaskBuilder.build task).Start env = (none, t1)) :
    ∃ t2, t1.Stop = StopOutcome.returned none t2 ∧
      (t2.worker (RunOutcome.panicked PanicValue.errStop)).2 = none ∧
      (t2.worker (RunOutcome.panicked PanicValue.errStop)).1.Wait
        = some (t2.worker (RunOutcome.panicked PanicValue.errStop)).1 ∧
      (t2.worker (RunOutcome.panicked PanicValue.errStop)).1.result = none := by
  obtain ⟨hr, hw, hvm, _⟩ := Start_ok_shape env _ t1 rfl hstart
  have hw1 : t1.waitGroup = 1 := by simpa [jsTaskBuilder.build] using hw
  have hr1 : t1.result = none := by rw [hr]; simpa [jsTaskBuilder.build] using hres
  refine ⟨{ t1 with vm := some { Interrupt := some [PanicValue.errStop] } }, ?_, ?_, ?_, ?_⟩
  · simp [JsPluginTask.Stop, hvm]
  · simp [JsPluginTask.worker, JsPluginTask.workerBody, JsPluginTask.deferred, hw1]
  · simp [JsPluginTask.worker, JsPluginTask.workerBody, JsPluginTask.deferred, hw1,
      JsPluginTask.Wait]
  · simp [JsPluginTask.worker, JsPluginTask.workerBody, JsPluginTask.deferred, hw1, hr1]

/-- C2, at a concrete task: `demoTask` started where its script compiles. -/
theorem C2_stop_signal_is_swallowed_witness :
    ∃ t2, ((jsTaskBuilder.build demoTask).Start compilesEnv).2.Stop
        = StopOutcome.returned none t2 ∧
      (t2.worker (RunOutcome.panicked PanicValue.errStop)).2 = none ∧
      (t2.worker (RunOutcome.panicked PanicValue.errStop)).1.Wait
        = some (t2.worker (RunOutcome.panicked PanicValue.errStop)).1 ∧
      (t2.worker (RunOutcome.panicked PanicValue.errStop)).1.result = none :=
  C2_stop_signal_is_swallowed compilesEnv demoTask
    ((jsTaskBuilder.build demoTask).Start compilesEnv).2 rfl rfl

/-- C3: on a task started successfully, when `vm.Run` returns an error the
goroutine ends without unwinding, `Wait` returns, and the result has no
`Output` and as `Error` exactly the message of that error. -/
theorem C3_script_fault_is_stored (env : Env) (task : PluginTask) (t1 : JsPluginTask)
    (msg : String) (hstart : (jsTaskBuilder.build task).Start env = (none, t1)) :
    (t1.worker (RunOutcome.failed msg)).2 = none ∧
    (t1.worker (RunOutcome.failed msg)).1.Wait = some (t1.worker (RunOutcome.failed msg)).1 ∧
    (t1.worker (RunOutcome.failed msg)).1.result
      = some { Output := none, Error := some msg } := by
  obtain ⟨_, hw, _, _⟩ := Start_ok_shape env _ t1 rfl hstart
  have hw1 : t1.waitGroup = 1 := by simpa [jsTaskBuilder.build] using hw
  refine ⟨?_, ?_, ?_⟩
  · simp [JsPluginTask.worker, JsPluginTask.workerBody, JsPluginTask.deferred,
      JsPluginTask.onError, hw1]
  · simp [JsPluginTask.worker, JsPluginTask.workerBody, JsPluginTask.deferred,
      JsPluginTask.onError, hw1, JsPluginTask.Wait]
  · simp [JsPluginTask.worker, JsPluginTask.workerBody, JsPluginTask.deferred,
      JsPluginTask.onError, hw1]

/-- C3, at a concrete task: `demoTask` whose script throws `boom`. -/
theorem C3_script_fault_is_stored_witness :
    (((jsTaskBuilder.build demoTask).Start compilesEnv).2.worker
        (RunOutcome.failed "Error: boom")).1.result
      = some { Output := none, Error := some "Error: boom" } :=
  (C3_script_fault_is_stored compilesEnv demoTask
    ((jsTaskBuilder.build demoTask).Start compilesEnv).2 "Error: boom" rfl).2.2

/-- C4, as stated, fails: for the object without properties the result is not
empty, its `Output` holds the undefined value; and for an object whose `Error`
property is the undefined value, `Error` is not the string form of that
property but absent. -/
theorem C4_makeOutput_counterexample :
    ((jsTaskBuilder.build demoTask).makeOutput demoEngine (Value.object 0 [])).result
        ≠ some { Output := none, Error := none } ∧
    ((jsTaskBuilder.build demoTask).makeOutput demoEngine (Value.object 0 [])).result
        = some { Output := some Value.undefined, Error := none } ∧
    ((jsTaskBuilder.build demoTask).makeOutput demoEngine
        (Value.object 0 [("Error", Value.undefined)])).result
        = some { Output := some Value.undefined, Error := none } ∧
    ¬ (∃ out, ((jsTaskBuilder.build demoTask).makeOutput demoEngine
        (Value.object 0 [("Error", Value.undefined)])).result = some out ∧
        out.Error = some (demoEngine.String Value.undefined)) := by
  refine ⟨?_, ?_, ?_, ?_⟩ <;>
    simp [JsPluginTask.makeOutput, Value.Object, Object.Get, Value.IsUndefined, List.lookup]

/-- C4, amended: a value that is not an object gives the empty result. An
object always gives a result whose `Output` is present and holds what looking
up `Output` on it returns: the value of that property, or the undefined value
when the object has none. `Error` is the string form the engine gives the
property `Error` when the object has it with a value other than the undefined
one, and absent when the object has no such property or has it with the
undefined value. -/
theorem C4_makeOutput_structural (engine : Engine) (t : JsPluginTask) (o : Value) :
    (o.Object = none →
      (t.makeOutput engine o).result = some { Output := none, Error := none }) ∧
    (∀ ref fields, o = Value.object ref fields →
      (∀ v, fields.lookup "Output" = some v → fields.lookup "Error" = none →
        (t.makeOutput engine o).result = some { Output := some v, Error := none }) ∧
      (∀ e, fields.lookup "Error" = some e → e.IsUndefined = false →
        (t.makeOutput engine o).result
          = some { Output := some (Object.Get fields "Output"),
                   Error := some (engine.String e) }) ∧
      (∀ e, fields.lookup "Error" = some e → e.IsUndefined = true →
        (t.makeOutput engine o).result
          = some { Output := some (Object.Get fields "Output"), Error := none }) ∧
      (fields.lookup "Output" = none → fields.lookup "Error" = none →
        (t.makeOutput engine o).result
          = some { Output := some Value.undefined, Error := none })) := by
  refine ⟨?_, ?_⟩
  · intro h
    simp [JsPluginTask.makeOutput, h]
  · intro ref fields ho
    subst ho
    refine ⟨?_, ?_, ?_, ?_⟩
    · intro v hv he
      simp [JsPluginTask.makeOutput, Value.Object, Object.Get, hv, he, Value.IsUndefined]
    · intro e he hu
      simp [JsPluginTask.makeOutput, Value.Object, Object.Get, he, hu]
    · intro e he hu
      simp [JsPluginTask.makeOutput, Value.Object, Object.Get, he, hu]
    · intro hv he
      simp [JsPluginTask.makeOutput, Value.Object, Object.Get, hv, he, Value.IsUndefined]

/-- C4, amended, at concrete values: a number, the object with `Output` set to
`ok`, the object with `Error` set to `bad`, the object with `Error` set to the
undefined value, and the object without properties. -/
theorem C4_makeOutput_structural_witness :
    ((jsTaskBuilder.build demoTask).makeOutput demoEngine (Value.number 0)).result
      = some { Output := none, Error := none } ∧
    ((jsTaskBuilder.build demoTask).makeOutput demoEngine
        (Value.object 0 [("Output", Value.string "ok")])).result
      = some { Output := some (Value.string "ok"), Error := none } ∧
    ((jsTaskBuilder.build demoTask).makeOutput demoEngine
        (Value.object 0 [("Error", Value.string "bad")])).result
      = some { Output := some Value.undefined, Error := some "bad" } ∧
    ((jsTaskBuilder.build demoTask).makeOutput demoEngine
        (Value.object 0 [("Error", Value.undefined)])).result
      = some { Output := some Value.undefined, Error := none } ∧
    ((jsTaskBuilder.build demoTask).makeOutput demoEngine (Value.object 0 [])).result
      = some { Output := some Value.undefined, Error := none } :=
  ⟨(C4_makeOutput_structural demoEngine (jsTaskBuilder.build demoTask)
      (Value.number 0)).1 rfl,
   ((C4_makeOutput_structural demoEngine (jsTaskBuilder.build demoTask)
      (Value.object 0 [("Output", Value.string "ok")])).2 _ _ rfl).1
      (Value.string "ok") (by simp [List.lookup]) (by simp [List.lookup]),
   ((C4_makeOutput_structural demoEngine (jsTaskBuilder.build demoTask)
      (Value.object 0 [("Error", Value.string "bad")])).2 _ _ rfl).2.1
      (Value.string "bad") (by simp [List.lookup]) rfl,
   ((C4_makeOutput_structural demoEngine (jsTaskBuilder.build demoTask)
      (Value.object 0 [("Error", Value.undefined)])).2 _ _ rfl).2.2.1
      Value.undefined (by simp [List.lookup]) rfl,
   ((C4_makeOutput_structural demoEngine (jsTaskBuilder.build demoTask)
      (Value.object 0 [])).2 _ _ rfl).2.2.2 (by simp [List.lookup]) (by simp [List.lookup])⟩

/-- C6, as stated, fails: on a task that was never started `Stop` faults on
the nil engine, and on a task whose `Start` failed at compiling `Stop` blocks
on the nil channel; in neither case does it return an error. -/
theorem C6_stop_uninitialised_counterexample :
    (jsTaskBuilder.build demoTask).Stop = StopOutcome.fault ∧
    ((jsTaskBuilder.build demoTask).Start brokenEnv).1 = some "SyntaxError" ∧
    ((jsTaskBuilder.build demoTask).Start brokenEnv).2.Stop = StopOutcome.blocked ∧
    ¬ (∃ e t2, (jsTaskBuilder.build demoTask).Stop = StopOutcome.returned (some e) t2) ∧
    ¬ (∃ e t2, ((jsTaskBuilder.build demoTask).Start brokenEnv).2.Stop
        = StopOutcome.returned (some e) t2) := by
  refine ⟨rfl, rfl, rfl, ?_, ?_⟩
  · rintro ⟨e, t2, h⟩
    exact Stop_never_returns_error _ _ _ h
  · rintro ⟨e, t2, h⟩
    exact Stop_never_returns_error _ _ _ h

/-- C6, amended: `Stop` never returns an error. On a task whose worker is not
initialised it does not return at all: built and never started, it faults on
the nil engine; after a `Start` that failed because `exec` is empty, it faults
on the nil engine as well; after a `Start` that failed at compiling, it blocks
on the nil interrupt channel; and a `Start` that returns an error fails in one
of these two ways. After a successful `Start` the interrupt channel is empty,
and `Stop` queues the stop signal on it, changes nothing else and returns
nil. -/
theorem C6_stop_reports_no_error (env : Env) (task : PluginTask) :
    (∀ (t t2 : JsPluginTask) (e : String), t.Stop ≠ StopOutcome.returned (some e) t2) ∧
    (jsTaskBuilder.build task).Stop = StopOutcome.fault ∧
    (task.plugin.Exec = [] →
      ((jsTaskBuilder.build task).Start env).1 = some "no script specified in exec" ∧
      ((jsTaskBuilder.build task).Start env).2.Stop = StopOutcome.fault) ∧
    (∀ scriptFile rest err, task.plugin.Exec = scriptFile :: rest →
      env.compile task.plugin scriptFile = some err →
      ((jsTaskBuilder.build task).Start env).1 = some err ∧
      ((jsTaskBuilder.build task).Start env).2.Stop = StopOutcome.blocked) ∧
    (∀ e t1, (jsTaskBuilder.build task).Start env = (some e, t1) →
      t1.Stop = StopOutcome.fault ∨ t1.Stop = StopOutcome.blocked) ∧
    (∀ t1, (jsTaskBuilder.build task).Start env = (none, t1) →
      t1.vm = some { Interrupt := some [] } ∧
      t1.Stop = StopOutcome.returned none
        { t1 with vm := some { Interrupt := some [PanicValue.errStop] } }) := by
  refine ⟨fun t t2 e => Stop_never_returns_error t t2 e, rfl, ?_, ?_, ?_, ?_⟩
  · intro hx
    simp [JsPluginTask.Start, jsTaskBuilder.build, hx, JsPluginTask.Stop]
  · intro scriptFile rest err hx hc
    simp [JsPluginTask.Start, jsTaskBuilder.build, hx, hc, JsPluginTask.Stop, Otto.New]
  · intro e t1 h
    rcases Start_error_shape env _ t1 e rfl rfl h with hv | hv
    · left
      simp [JsPluginTask.Stop, hv]
    · right
      simp [JsPluginTask.Stop, hv]
  · intro t1 h
    obtain ⟨_, _, hvm, _⟩ := Start_ok_shape env _ t1 rfl h
    exact ⟨hvm, by simp [JsPluginTask.Stop, hvm]⟩

/-- C6, amended, at concrete tasks: `noExecTask` after its `Start`, and
`demoTask` after a `Start` that failed at compiling and after a `Start` that
succeeded. -/
theorem C6_stop_reports_no_error_witness :
    (((jsTaskBuilder.build noExecTask).Start compilesEnv).1
        = some "no script specified in exec" ∧
      ((jsTaskBuilder.build noExecTask).Start compilesEnv).2.Stop = StopOutcome.fault) ∧
    (((jsTaskBuilder.build demoTask).Start brokenEnv).1 = some "SyntaxError" ∧
      ((jsTaskBuilder.build demoTask).Start brokenEnv).2.Stop = StopOutcome.blocked) ∧
    (((jsTaskBuilder.build demoTask).Start brokenEnv).2.Stop = StopOutcome.fault ∨
      ((jsTaskBuilder.build demoTask).Start brokenEnv).2.Stop = StopOutcome.blocked) ∧
    (((jsTaskBuilder.build demoTask).Start compilesEnv).2.vm
        = some { Interrupt := some [] } ∧
      ((jsTaskBuilder.build demoTask).Start compilesEnv).2.Stop
        = StopOutcome.returned none
          { ((jsTaskBuilder.build demoTask).Start compilesEnv).2 with
            vm := some { Interrupt := some [PanicValue.errStop] } }) :=
  ⟨(C6_stop_reports_no_error compilesEnv noExecTask).2.2.1 rfl,
   (C6_stop_reports_no_error brokenEnv demoTask).2.2.2.1 "main.js" [] "SyntaxError" rfl rfl,
   (C6_stop_reports_no_error brokenEnv demoTask).2.2.2.2.1 "SyntaxError" _ rfl,
   (C6_stop_reports_no_error compilesEnv demoTask).2.2.2.2.2 _ rfl⟩

/-- C10, as stated, fails: when the goroutine of a started task is unwound by
a value other than `errStop`, the task has no result afterwards, so no result
whose `Error` is the message of the fault. -/
theorem C10_other_unwind_counterexample :
    (((jsTaskBuilder.build demoTask).Start compilesEnv).2.worker
        (RunOutcome.panicked (PanicValue.other "boom"))).1.result = none ∧
    ¬ (∃ out, (((jsTaskBuilder.build demoTask).Start compilesEnv).2.worker
        (RunOutcome.panicked (PanicValue.other "boom"))).1.result = some out ∧
        out.Error = some "boom") := by
  have h : (((jsTaskBuilder.build demoTask).Start compilesEnv).2.worker
        (RunOutcome.panicked (PanicValue.other "boom"))).1.result = none := rfl
  refine ⟨h, ?_⟩
  rintro ⟨out, ho, _⟩
  rw [h] at ho
  exact Option.noConfusion ho

/-- C10, amended: on a task built without result and started successfully,
when the goroutine is unwound by a value other than `errStop`, the deferred
function recovers it as it does `errStop`: nothing leaves the goroutine, the
wait group is back at zero so that `Wait` returns, and the result of the task
is absent. -/
theorem C10_other_unwind_is_swallowed (env : Env) (task : PluginTask) (t1 : JsPluginTask)
    (p : PanicValue) (hp : p ≠ PanicValue.errStop) (hres : task.result = none)
    (hstart : (jsTaskBuilder.build task).Start env = (none, t1)) :
    (t1.worker (RunOutcome.panicked p)).2 = none ∧
    (t1.worker (RunOutcome.panicked p)).1.Wait = some (t1.worker (RunOutcome.panicked p)).1 ∧
    (t1.worker (RunOutcome.panicked p)).1.result = none := by
  obtain ⟨hr, hw, _, _⟩ := Start_ok_shape env _ t1 rfl hstart
  have hw1 : t1.waitGroup = 1 := by simpa [jsTaskBuilder.build] using hw
  have hr1 : t1.result = none := by rw [hr]; simpa [jsTaskBuilder.build] using hres
  refine ⟨?_, ?_, ?_⟩
  · simp [JsPluginTask.worker, JsPluginTask.workerBody, JsPluginTask.deferred, hw1, hp]
  · simp [JsPluginTask.worker, JsPluginTask.workerBody, JsPluginTask.deferred, hw1, hp,
      JsPluginTask.Wait]
  · simp [JsPluginTask.worker, JsPluginTask.workerBody, JsPluginTask.deferred, hw1, hp, hr1]

/-- C10, amended, at a concrete task: `demoTask` unwound by `boom`. -/
theorem C10_other_unwind_is_swallowed_witness :
    (((jsTaskBuilder.build demoTask).Start compilesEnv).2.worker
        (RunOutcome.panicked (PanicValue.other "boom"))).2 = none ∧
    (((jsTaskBuilder.build demoTask).Start compilesEnv).2.worker
        (RunOutcome.panicked (PanicValue.other "boom"))).1.Wait
      = some (((jsTaskBuilder.build demoTask).Start compilesEnv).2.worker
        (RunOutcome.panicked (PanicValue.other "boom"))).1 ∧
    (((jsTaskBuilder.build demoTask).Start compilesEnv).2.worker
        (RunOutcome.panicked (PanicValue.other "boom"))).1.result = none :=
  C10_other_unwind_is_swallowed compilesEnv demoTask _ (PanicValue.other "boom")
    (by decide) rfl rfl

/-! ## Facts about the registry -/

theorem getPluginIn_eq_none (plugins : List Config) (pluginID : String) :
    getPluginIn plugins pluginID = none ↔ ∀ s ∈ plugins, s.id ≠ pluginID := by
  induction plugins with
  | nil => simp [getPluginIn]
  | cons s rest ih =>
    by_cases h : s.id = pluginID
    · simp [getPluginIn, h]
    · simp [getPluginIn, h, ih]

theorem getPluginIn_some (plugins : List Config) (pluginID : String) (s : Config)
    (h : getPluginIn plugins pluginID = some s) : s ∈ plugins ∧ s.id = pluginID := by
  induction plugins with
  | nil => simp [getPluginIn] at h
  | cons x rest ih =>
    by_cases hx : x.id = pluginID
    · simp [getPluginIn, hx] at h
      subst h
      simp [hx]
    · simp [getPluginIn, hx] at h
      have := ih h
      exact ⟨List.mem_cons_of_mem _ this.1, this.2⟩

theorem getTask_eq_none (c : Config) (name : String) :
    c.getTask name = none ↔ ∀ o ∈ c.Tasks, o.Name ≠ name := by
  simp [Config.getTask, List.find?_eq_none]

theorem Walk_collectYml (entries : List WalkEntry) (acc : List String) :
    Walk collectYml entries acc
      = (acc ++ (entries.map (fun e => e.path)).filter (fun fp => Ext fp = ".yml"), none) := by
  induction entries generalizing acc with
  | nil => simp [Walk]
  | cons e rest ih =>
    by_cases h : Ext e.path = ".yml"
    · simp [Walk, collectYml, h, ih, List.filter_cons]
    · simp [Walk, collectYml, h, ih, List.filter_cons]

theorem foldl_load (parse : String → Except String Config) (files : List String)
    (acc : List Config) :
    files.foldl
      (fun plugins file =>
        match parse file with
        | .error _ => plugins
        | .ok plugin => plugins ++ [plugin]) acc
      = acc ++ files.filterMap (fun file => (parse file).toOption) := by
  induction files generalizing acc with
  | nil => simp
  | cons f rest ih =>
    cases hp : parse f with
    | error e => simp [List.foldl_cons, hp, ih, List.filterMap_cons, Except.toOption]
    | ok cfg => simp [List.foldl_cons, hp, ih, List.filterMap_cons, Except.toOption]

theorem ListPlugins_eq_map {P : Type} (toPlugin : Config → P) (c : Cache) :
    c.ListPlugins toPlugin = c.plugins.map toPlugin := by
  unfold Cache.ListPlugins
  suffices h : ∀ (l : List Config) (acc : List P),
      l.foldl (fun ret s => ret ++ [toPlugin s]) acc = acc ++ l.map toPlugin by
    simpa using h c.plugins []
  intro l
  induction l with
  | nil => simp
  | cons x rest ih => intro acc; simp [ih]

theorem length_filterMap_toOption (parse : String → Except String Config)
    (files : List String) :
    (files.filterMap (fun file => (parse file).toOption)).length
      + files.countP (fun file => (parse file).toOption.isNone) = files.length := by
  induction files with
  | nil => simp
  | cons f rest ih =>
    cases hp : parse f with
    | error e =>
      have h1 : (Except.error e : Except String Config).toOption = none := rfl
      simp only [List.filterMap_cons, List.countP_cons, hp, h1, List.length_cons]
      simp
      omega
    | ok cfg =>
      have h1 : (Except.ok cfg : Except String Config).toOption = some cfg := rfl
      simp only [List.filterMap_cons, List.countP_cons, hp, h1, List.length_cons]
      simp
      omega

theorem loadPlugins_eq (fs : String → List WalkEntry) (parse : String → Except String Config)
    (path : String) :
    loadPlugins fs parse path
      = .ok ((manifestFiles (fs path)).filterMap (fun file => (parse file).toOption)) := by
  simp [loadPlugins, Walk_collectYml, foldl_load, manifestFiles]

theorem eventLoop_progress {α : Type} (ps : List α) (rest : List (Event α)) (tr : LoopTrace α) :
    eventLoop (ps.map Event.progress ++ rest) tr
      = eventLoop rest { tr with percents := tr.percents ++ ps } := by
  induction ps generalizing tr with
  | nil => simp
  | cons p ps ih => simp [eventLoop, ih]

theorem eventLoop_percents {α : Type} (events : List (Event α)) (tr : LoopTrace α) :
    (eventLoop events tr).1.percents = tr.percents ++ progressBefore events := by
  induction events generalizing tr with
  | nil => simp [eventLoop, progressBefore]
  | cons e rest ih =>
    cases e with
    | done => simp [eventLoop, progressBefore]
    | progress p => simp [eventLoop, progressBefore, ih]
    | ctxDone => simp [eventLoop, progressBefore]

/-! ## Claims on `pkg/plugin/plugins.go` -/

/-- C5: when no loaded plugin has the id `pluginID`, or the plugin found for it
declares no task named `operationName`, `CreateTask` returns an error and no
task. In every case the cache after `CreateTask` is the cache before it, and a
later `CreateTask` for the same plugin and a task name it declares returns a
task. The plugin found is a loaded plugin with exactly that id. -/
theorem C5_createTask_resolution {T : Type} (getName : Config → String)
    (createTask : PluginTask → T) (c : Cache) (pluginID operationName : String)
    (args : List (String × String)) :
    ((∀ s ∈ c.plugins, s.id ≠ pluginID) →
      (c.CreateTask getName createTask pluginID operationName args).1
        = .error ("no plugin with ID " ++ pluginID)) ∧
    (∀ plugin, c.getPlugin pluginID = some plugin →
      plugin ∈ c.plugins ∧ plugin.id = pluginID) ∧
    (∀ plugin, c.getPlugin pluginID = some plugin →
      (∀ o ∈ plugin.Tasks, o.Name ≠ operationName) →
      (c.CreateTask getName createTask pluginID operationName args).1
        = .error ("no task with name " ++ operationName ++ " in plugin " ++ getName plugin)) ∧
    (c.CreateTask getName createTask pluginID operationName args).2 = c ∧
    (∀ plugin otherName args2, c.getPlugin pluginID = some plugin →
      (∃ o ∈ plugin.Tasks, o.Name = otherName) →
      ∃ operation, plugin.getTask otherName = some operation ∧
        ((c.CreateTask getName createTask pluginID operationName args).2.CreateTask
            getName createTask pluginID otherName args2).1
          = .ok (createTask { plugin := plugin, operation := operation, args := args2 })) := by
  have hsame : (c.CreateTask getName createTask pluginID operationName args).2 = c := by
    unfold Cache.CreateTask
    cases c.getPlugin pluginID with
    | none => rfl
    | some plugin =>
      cases hg : plugin.getTask operationName <;> simp [hg]
  refine ⟨?_, ?_, ?_, hsame, ?_⟩
  · intro h
    have hn : c.getPlugin pluginID = none := (getPluginIn_eq_none _ _).2 h
    simp [Cache.CreateTask, hn]
  · intro plugin h
    exact getPluginIn_some _ _ _ h
  · intro plugin hp ht
    have hn : plugin.getTask operationName = none := (getTask_eq_none _ _).2 ht
    simp [Cache.CreateTask, hp, hn]
  · intro plugin otherName args2 hp hex
    rw [hsame]
    cases hg : plugin.getTask otherName with
    | none =>
      obtain ⟨o, ho, hname⟩ := hex
      exact absurd hname ((getTask_eq_none _ _).1 hg o ho)
    | some operation =>
      exact ⟨operation, rfl, by simp [Cache.CreateTask, hp, hg]⟩

/-- C5, at a concrete cache: `demoCache` asked for an unknown plugin, for an
unknown task of `demoPlugin`, and then for the task `run` of `demoPlugin`. -/
theorem C5_createTask_resolution_witness :
    (demoCache.CreateTask (fun s => s.Name) id "nope" "run" []).1
      = .error "no plugin with ID nope" ∧
    (demoCache.CreateTask (fun s => s.Name) id "demo" "walk" []).1
      = .error "no task with name walk in plugin Demo" ∧
    (∃ operation, demoPlugin.getTask "run" = some operation ∧
      ((demoCache.CreateTask (fun s => s.Name) id "demo" "walk" []).2.CreateTask
          (fun s => s.Name) id "demo" "run" []).1
        = .ok { plugin := demoPlugin, operation := operation, args := [] }) :=
  ⟨(C5_createTask_resolution (fun s => s.Name) id demoCache "nope" "run" []).1 (by decide),
   (C5_createTask_resolution (fun s => s.Name) id demoCache "demo" "walk" []).2.2.1
      demoPlugin rfl (by decide),
   (C5_createTask_resolution (fun s => s.Name) id demoCache "demo" "walk" []).2.2.2.2
      demoPlugin "run" [] rfl ⟨{ Name := "run" }, by decide, rfl⟩⟩

/-- C7, as stated, fails: on a cache that holds a plugin, a `LoadPlugins` over
a plugin directory that cannot be enumerated returns no error and leaves the
plugin list empty; and a `LoadPlugins` whose `loadPlugins` returns an error
returns that error and leaves the plugin list empty as well, not as it was. -/
theorem C7_failed_load_counterexample :
    demoCache.LoadPlugins missingDir demoReader
      = (none, { pluginsPath := "plugins", plugins := [] }) ∧
    (demoCache.LoadPlugins missingDir demoReader).2.plugins ≠ demoCache.plugins ∧
    demoCache.LoadPluginsWith (fun _ => .error "walk failed")
      = (some "walk failed", { pluginsPath := "plugins", plugins := [] }) ∧
    (demoCache.LoadPluginsWith (fun _ => .error "walk failed")).2.plugins
      ≠ demoCache.plugins := by
  decide

/-- C7, amended: `LoadPlugins` is `LoadPluginsWith` run on `loadPlugins`; it
clears the plugin list before loading. When `loadPlugins` returns an error,
`LoadPlugins` returns that error and the plugin list is left empty; the list
is set to the loaded plugins only when `loadPlugins` succeeds. -/
theorem C7_failed_load_leaves_cache_empty (c : Cache)
    (load : String → Except String (List Config)) :
    (∀ fs parse, c.LoadPlugins fs parse = c.LoadPluginsWith (loadPlugins fs parse)) ∧
    (∀ err, load c.pluginsPath = .error err →
      c.LoadPluginsWith load = (some err, { c with plugins := [] })) ∧
    (∀ plugins, load c.pluginsPath = .ok plugins →
      c.LoadPluginsWith load = (none, { c with plugins := plugins })) := by
  refine ⟨fun _ _ => rfl, ?_, ?_⟩
  · intro err h
    simp [Cache.LoadPluginsWith, h]
  · intro plugins h
    simp [Cache.LoadPluginsWith, h]

/-- C7, amended, at a concrete cache: `demoCache` with a load that fails. -/
theorem C7_failed_load_leaves_cache_empty_witness :
    demoCache.LoadPluginsWith (fun _ => .error "walk failed")
      = (some "walk failed", { demoCache with plugins := [] }) :=
  (C7_failed_load_leaves_cache_empty demoCache (fun _ => .error "walk failed")).2.1
    "walk failed" rfl

/-- C8: `loadPlugins` never returns an error; it returns the configs of the
manifest files that the reader accepts, in the order of the walk. With N
manifest files of which k are rejected that is N - k entries, each of them read
from a manifest file, and `ListPlugins` after `LoadPlugins` lists exactly
these. -/
theorem C8_loadPlugins_skips_malformed {P : Type} (fs : String → List WalkEntry)
    (parse : String → Except String Config) (toPlugin : Config → P) (c : Cache)
    (path : String) :
    loadPlugins fs parse path
      = .ok ((manifestFiles (fs path)).filterMap (fun file => (parse file).toOption)) ∧
    ((manifestFiles (fs path)).filterMap (fun file => (parse file).toOption)).length
      = (manifestFiles (fs path)).length
        - (manifestFiles (fs path)).countP (fun file => (parse file).toOption.isNone) ∧
    (∀ plugin ∈ (manifestFiles (fs path)).filterMap (fun file => (parse file).toOption),
      ∃ file ∈ manifestFiles (fs path), parse file = .ok plugin) ∧
    (c.LoadPlugins fs parse).1 = none ∧
    (c.LoadPlugins fs parse).2.ListPlugins toPlugin
      = ((manifestFiles (fs c.pluginsPath)).filterMap
          (fun file => (parse file).toOption)).map toPlugin := by
  refine ⟨loadPlugins_eq fs parse path, ?_, ?_, ?_, ?_⟩
  · have := length_filterMap_toOption parse (manifestFiles (fs path))
    omega
  · intro plugin hmem
    obtain ⟨file, hf, hp⟩ := List.mem_filterMap.1 hmem
    refine ⟨file, hf, ?_⟩
    cases hx : parse file with
    | error e => simp [hx, Except.toOption] at hp
    | ok cfg =>
      simp [hx, Except.toOption] at hp
      rw [hp]
  · simp [Cache.LoadPlugins, Cache.LoadPluginsWith, loadPlugins_eq]
  · rw [ListPlugins_eq_map]
    simp [Cache.LoadPlugins, Cache.LoadPluginsWith, loadPlugins_eq]

/-- C8, at a concrete directory: `demoDir` holds three manifest files of which
`demoReader` rejects one; two configs are loaded, in the order of the walk, and
the first of them was read from a manifest file. -/
theorem C8_loadPlugins_skips_malformed_witness :
    loadPlugins demoDir demoReader "plugins"
      = .ok [{ id := "plugins/a.yml" }, { id := "plugins/sub/c.yml" }] ∧
    (∃ file ∈ manifestFiles (demoDir "plugins"),
      demoReader file = .ok { id := "plugins/a.yml" }) :=
  ⟨(C8_loadPlugins_skips_malformed demoDir demoReader id demoCache "plugins").1.trans
      (congrArg Except.ok (by decide)),
   (C8_loadPlugins_skips_malformed demoDir demoReader id demoCache "plugins").2.2.1
      { id := "plugins/a.yml" } (by decide)⟩

/-! ## Claim on `pkg/manager/task_plugin.go` -/

/-- C9: when the loop services the progress values `ps` and then `done` or
`ctx.Done()`, the values passed to `SetPercent` are exactly `ps` in that order,
so the last one passed is the last one emitted; the loop returns at that event
and receives none of the events behind it. In general the values passed are
the progress values before the first `done` or `ctx.Done()`. -/
theorem C9_eventLoop_forwards_progress {α : Type} (ps : List α) (rest : List (Event α)) :
    eventLoop (ps.map Event.progress ++ Event.done :: rest) {}
      = ({ percents := ps, stopCalls := 0, returned := true }, rest) ∧
    eventLoop (ps.map Event.progress ++ Event.ctxDone :: rest) {}
      = ({ percents := ps, stopCalls := 1, returned := true }, rest) ∧
    (eventLoop (ps.map Event.progress ++ Event.done :: rest) {}).1.percents.getLast?
      = ps.getLast? ∧
    (eventLoop (ps.map Event.progress ++ Event.ctxDone :: rest) {}).1.percents.getLast?
      = ps.getLast? ∧
    (∀ events : List (Event α), (eventLoop events {}).1.percents = progressBefore events) := by
  have h1 : eventLoop (ps.map Event.progress ++ Event.done :: rest) {}
      = ({ percents := ps, stopCalls := 0, returned := true }, rest) := by
    rw [eventLoop_progress]
    simp [eventLoop]
  have h2 : eventLoop (ps.map Event.progress ++ Event.ctxDone :: rest) {}
      = ({ percents := ps, stopCalls := 1, returned := true }, rest) := by
    rw [eventLoop_progress]
    simp [eventLoop]
  refine ⟨h1, h2, by rw [h1], by rw [h2], ?_⟩
  intro events
  simpa using eventLoop_percents events {}

end Stash
